import Mathlib

/-
Verification of the SeriousCast upstream client and media pipeline
(`sirius.py`, `server.py`) against its natural-language specification.

The Python source is shallowly embedded: strings are `List Char`, byte
strings are `List Nat` (each entry one byte value), fallible code returns
`Option` (with `none` modelling a raised exception), and the network is
modelled by passing the scripted sequence of upstream responses as an
explicit list argument.  External library primitives (hashes, AES, the
HTTP stack) are abstracted as function parameters; everything written in
the repository itself is translated directly.
-/

/-- Python `str.splitlines` (for the line terminators LF, CR and CRLF,
the ones that can occur in the m3u8 playlists this code consumes):
accumulates the current line in `acc` (reversed) and closes it at each
terminator; a trailing unterminated line is kept, a trailing terminator
does not create an extra empty line, and the empty string yields no
lines. -/
def splitLinesAux : List Char → List Char → List (List Char)
  | acc, [] => if acc = [] then [] else [acc.reverse]
  | acc, '\r' :: '\n' :: rest => acc.reverse :: splitLinesAux [] rest
  | acc, '\n' :: rest => acc.reverse :: splitLinesAux [] rest
  | acc, '\r' :: rest => acc.reverse :: splitLinesAux [] rest
  | acc, c :: rest => splitLinesAux (c :: acc) rest

/-- Python `str.splitlines` on a `List Char` text. -/
def splitLines (s : List Char) : List (List Char) := splitLinesAux [] s

/-- Python `str.strip()` whitespace test (the ASCII whitespace
characters: space, tab, newline, carriage return, vertical tab, form
feed). -/
def isPySpace (c : Char) : Bool :=
  c = ' ' || c = '\t' || c = '\n' || c = '\r' || c = Char.ofNat 11 || c = Char.ofNat 12

/-- Python `str.strip()`: drop whitespace from both ends of a line. -/
def pyStrip (l : List Char) : List Char :=
  ((l.dropWhile isPySpace).reverse.dropWhile isPySpace).reverse

/-- The value of the list comprehension in `Sirius._filter_playlist`
(`sirius.py` line 73) when it does not raise:
`[x.strip() for x in playlist.splitlines() if not x[0] == '#']` —
the lines whose first character is not `#`, each stripped.  (An empty
line has no first character; that crash is modelled in
`filterPlaylist`, not here.) -/
def entriesPure (playlist : List Char) : List (List Char) :=
  ((splitLines playlist).filter (fun l => l.head? ≠ some '#')).map pyStrip

/-- Python `playlist[playlist.index(last) + 1:]`: the suffix strictly
after the first occurrence of `m`. -/
def suffixAfter {α : Type} [DecidableEq α] (m : α) : List α → List α
  | [] => []
  | x :: xs => if x = m then xs else suffixAfter m xs

/-- Python `l[-(n):]` for `n > 0`: the last `n` elements (all of them
when fewer than `n` exist). -/
def lastN {α : Type} (n : Nat) (l : List α) : List α := l.drop (l.length - n)

/-- `Sirius._filter_playlist(playlist, last, rewind)` (`sirius.py`
lines 68-76).  `none` models the `IndexError` raised by `x[0]` when any
line of the playlist is empty; `last = none` models `last=None`, and a
marker equal to the empty string is falsy in Python, so it is treated
like an absent marker. -/
def filterPlaylist (playlist : List Char) (last : Option (List Char)) (rewind : Nat) :
    Option (List (List Char)) :=
  if (splitLines playlist).any List.isEmpty then none
  else
    let entries := entriesPure playlist
    match last with
    | some m =>
      if m ≠ [] ∧ m ∈ entries then some (suffixAfter m entries)
      else some (lastN (10 + 3 * rewind) entries)
    | none => some (lastN (10 + 3 * rewind) entries)

/-- Outcome of `Sirius._get_token_resource` (`sirius.py` lines
204-216) on a scripted sequence of HTTP statuses. -/
inductive FetchOutcome : Type where
  /-- the `status_code == 200` branch: the response object is returned. -/
  | ok : FetchOutcome
  /-- the `status_code == 404` branch: `SiriusException` is raised. -/
  | notFound : FetchOutcome
  /-- the scripted status list ran out while the code was still
  recursing (in the real code the recursion would simply continue with
  the next live response). -/
  | outOfResponses : FetchOutcome
deriving DecidableEq

/-- Trace of one `_get_token_resource` call: its outcome, the number of
HTTP requests it issued for the resource, and the number of forced
token refreshes (`_channel_token(channel_key, True)` calls) it made. -/
structure FetchTrace : Type where
  outcome : FetchOutcome
  requests : Nat
  invalidations : Nat
deriving DecidableEq

/-- `Sirius._get_token_resource(channel_key, file)` (`sirius.py` lines
204-216), with the network abstracted as the list of HTTP status codes
the successive resource requests would return.  A 200 returns the
response; a 404 raises (`notFound`); any other status logs, forces a
token refresh and calls itself again on the remaining responses, with
no bound on the recursion. -/
def getTokenResource : List Nat → FetchTrace
  | [] => ⟨.outOfResponses, 0, 0⟩
  | s :: rest =>
    if s = 200 then ⟨.ok, 1, 0⟩
    else if s = 404 then ⟨.notFound, 1, 0⟩
    else
      let t := getTokenResource rest
      ⟨t.outcome, t.requests + 1, t.invalidations + 1⟩

/-- Outcome of `Sirius._channel_token` (`sirius.py` lines 180-201).
`α` is the type of the decoded `(channel_url, token)` pair. -/
inductive TokenOutcome (α : Type) : Type where
  /-- a usable token was obtained (from the cache or from a response
  carrying token data). -/
  | ok : α → TokenOutcome α
  /-- the scripted response list ran out while the code was still
  re-logging-in and recursing (in the real code the recursion would
  simply continue with the next live response). -/
  | outOfResponses : TokenOutcome α
deriving DecidableEq

/-- Trace of one `_channel_token` call: its outcome, the number of
token-endpoint requests it issued and the number of `login` calls it
made. -/
structure TokenTrace (α : Type) : Type where
  outcome : TokenOutcome α
  requests : Nat
  logins : Nat
deriving DecidableEq

/-- `Sirius._channel_token(channel_key, invalidate)` (`sirius.py` lines
180-201), with the network abstracted: each element of the list is the
result of one token-endpoint request, `some t` when the JSON carries
`tokenResponse.tokenData` decoding to the pair `t`, `none` when the
token data is missing.  With `invalidate` false a cached pair is
returned without any request; on a usable response the decoded pair is
returned; on an unusable one the code re-logs-in and calls itself again
with `invalidate = True`, with no bound on the recursion. -/
def channelToken {α : Type} : Bool → Option α → List (Option α) → TokenTrace α
  | false, some t, _ => ⟨.ok t, 0, 0⟩
  | _, _, [] => ⟨.outOfResponses, 0, 0⟩
  | _, _, some t :: _ => ⟨.ok t, 1, 0⟩
  | _, cached, none :: rest =>
    let r := channelToken true cached rest
    ⟨r.outcome, r.requests + 1, r.logins + 1⟩

/-- The pacing tail of the frame-emission loop in
`SeriousRequestHandler.channel_stream` (`server.py` lines 183-191),
over idealized real time (rationals, in seconds).  The state is the
current clock value and the recorded `start_time` (initially `None`).
For each frame, `p` is the processing time spent producing it
(fetching, demuxing, buffering); the frame is written at `now + p`, and
only after the write does the code compare the clock with `start_time`,
sleep out the remainder of 4 seconds if less than 4 have elapsed, and
record the new timestamp.  The result lists, per frame, the write time
and the timestamp recorded after it. -/
def pacerRun : ℚ → Option ℚ → List ℚ → List (ℚ × ℚ)
  | _, _, [] => []
  | now, st, p :: ps =>
    let w := now + p
    let t := match st with
      | none => w
      | some s => if w - s < 4 then s + 4 else w
    (w, t) :: pacerRun t (some t) ps

/-- The bytes of the ICY metadata text built in `channel_stream`
(`server.py` line 174):
`("StreamTitle='" + track_title.replace("'", '') + "';").encode('utf-8')`.
The track title is given as its UTF-8 bytes; removing the character `'`
is removing the byte 39, which never occurs inside a multi-byte UTF-8
sequence. -/
def metaTitleBytes (title : List Nat) : List Nat :=
  ("StreamTitle=".data.map Char.toNat) ++ [39]
    ++ title.filter (fun b => b ≠ 39) ++ [39, 59]

/-- `meta_length = math.ceil(len(meta_title) / 16)` (`server.py`
line 175). -/
def metaLen (title : List Nat) : Nat := ((metaTitleBytes title).length + 15) / 16

/-- The metadata sub-frame built in `channel_stream` (`server.py` lines
173-180): when a title change is pending, one length byte followed by
the title text zero-padded to `meta_length * 16` bytes; otherwise the
single byte 0.  `none` models the `ValueError` that
`bytes((meta_length,))` raises when `meta_length` exceeds 255 (no frame
is emitted in that case). -/
def metaBuffer (newMeta : Bool) (title : List Nat) : Option (List Nat) :=
  if newMeta then
    if metaLen title ≤ 255 then
      some (metaLen title
        :: (metaTitleBytes title
            ++ List.replicate (metaLen title * 16 - (metaTitleBytes title).length) 0))
    else none
  else some [0]

/-- One emitted OutputFrame (`server.py` lines 172-185): when the audio
accumulator holds at least 32768 bytes, exactly the first 32768 audio
bytes are taken and exactly one metadata sub-frame is built; the pair
is written audio-first.  `none` when no frame is emitted (accumulator
too small, or the sub-frame construction raises). -/
def outputFrame (audio : List Nat) (newMeta : Bool) (title : List Nat) :
    Option (List Nat × List Nat) :=
  if 32768 ≤ audio.length then
    (metaBuffer newMeta title).map (fun mb => (audio.take 32768, mb))
  else none

/-- The value of one hexadecimal digit, `none` when the character is
not a hex digit (as in Python's `bytes.fromhex`). -/
def hexDigitVal (c : Char) : Option Nat :=
  if '0' ≤ c ∧ c ≤ '9' then some (c.toNat - 48)
  else if 'a' ≤ c ∧ c ≤ 'f' then some (c.toNat - 87)
  else if 'A' ≤ c ∧ c ≤ 'F' then some (c.toNat - 55)
  else none

/-- Python `bytes.fromhex`: two hex characters per byte; `none` models
the `ValueError` raised on an odd-length or non-hex string. -/
def hexDecode : List Char → Option (List Nat)
  | [] => some []
  | [_] => none
  | c1 :: c2 :: rest =>
    match hexDigitVal c1, hexDigitVal c2 with
    | some hi, some lo => (hexDecode rest).map (fun bs => (16 * hi + lo) :: bs)
    | _, _ => none

/-- One lowercase hex digit character. -/
def hexChar (n : Nat) : Char :=
  if n < 10 then Char.ofNat (48 + n) else Char.ofNat (87 + n)

/-- Python `binascii.hexlify`: two lowercase hex characters per byte. -/
def hexEncode : List Nat → List Char
  | [] => []
  | b :: bs => hexChar (b / 16 % 16) :: hexChar (b % 16) :: hexEncode bs

/-- The Python string `'10' * 16` appended to the message before
`_encrypt` hex-decodes it (`sirius.py` line 154). -/
def padHexChars : List Char := List.flatten (List.replicate 16 ("10").data)

/-- `Sirius.KEY_LENGTH` (`sirius.py` line 31). -/
def KEY_LENGTH : Nat := 16

/-- The cryptographic primitives `login` calls from `hashlib` and the
`cryptography` package, abstracted as opaque deterministic functions:
a SHA-256 hex digest of bytes, an MD5 hex digest of bytes,
PBKDF2-HMAC-SHA256 (key material, salt, iteration count, output
length), and AES-CBC encryption (key, IV, plaintext). -/
structure CryptoPrims : Type where
  sha256Hex : List Nat → List Char
  md5Hex : List Nat → List Char
  pbkdf2Sha256 : List Nat → List Nat → Nat → Nat → List Nat
  aesCbcEncrypt : List Nat → List Nat → List Nat → List Nat

/-- The message-construction and key-derivation part of `Sirius.login`
(`sirius.py` lines 141-154, plus `_encrypt` lines 35-42), translated
step for step: `message_hash` is the SHA-256 hex digest of the
hex-decoded `HARDWARE_ID ++ ETHERNET_MAC ++ challenge`; `message` is
the challenge followed by the first 32 hex characters of that digest;
the key is PBKDF2-HMAC-SHA256 over the hex-decoded MD5 hex digest of
the password, with the hex-decoded salt, the given iteration count and
output length `KEY_LENGTH`; `authenticationData` is the hex encoding of
the AES-CBC encryption (zero IV) of the hex-decoded
`message ++ '10'*16`.  Returns the derived key and the
`authenticationData` characters; `none` models a `ValueError` from
`bytes.fromhex`. -/
def loginDerive (pr : CryptoPrims) (challenge salt : List Char) (iterations : Nat)
    (hardwareId ethernetMac : List Char) (password : List Nat) :
    Option (List Nat × List Char) :=
  match hexDecode (hardwareId ++ ethernetMac ++ challenge) with
  | none => none
  | some idBytes =>
    let messageHash := pr.sha256Hex idBytes
    let message := challenge ++ messageHash.take 32
    match hexDecode (pr.md5Hex password), hexDecode salt with
    | some phBytes, some saltBytes =>
      let key := pr.pbkdf2Sha256 phBytes saltBytes iterations KEY_LENGTH
      match hexDecode (message ++ padHexChars) with
      | some plain =>
        some (key, hexEncode (pr.aesCbcEncrypt key (List.replicate 16 0) plain))
      | none => none
    | _, _ => none

/-- The login message construction as the claim words it: the same
inputs and primitives, but with the sixteen `0x10` padding bytes
appended to the hex-decoded message rather than spelled as the hex
text `'10' * 16` before decoding. -/
def loginDeriveSpec (pr : CryptoPrims) (challenge salt : List Char) (iterations : Nat)
    (hardwareId ethernetMac : List Char) (password : List Nat) :
    Option (List Nat × List Char) :=
  match hexDecode (hardwareId ++ ethernetMac ++ challenge) with
  | none => none
  | some idBytes =>
    let message := challenge ++ (pr.sha256Hex idBytes).take 32
    match hexDecode (pr.md5Hex password), hexDecode salt with
    | some phBytes, some saltBytes =>
      let key := pr.pbkdf2Sha256 phBytes saltBytes iterations 16
      match hexDecode message with
      | some msgBytes =>
        some (key, hexEncode (pr.aesCbcEncrypt key (List.replicate 16 0)
          (msgBytes ++ List.replicate 16 16)))
      | none => none
    | _, _ => none

/-- The two terminal authentication failures `login` can raise
(`sirius.py` lines 171-175): `SiriusException('Invalid password')` on
message code 401, `SiriusException('Unknown login error')` on any
other code. -/
inductive AuthError : Type where
  | invalidCredentials : AuthError
  | unknownAuthError : AuthError
deriving DecidableEq

/-- The fields of the completion response consumed by `login`
(`sirius.py` lines 168-177): `status`, `messages.code`, `sessionId`. -/
structure CompletionResponse : Type where
  status : Int
  code : Int
  sessionId : List Char
deriving DecidableEq

/-- The session-related mutable fields of the `Sirius` object:
`self.key` and `self.session_id`, each `none` before first
assignment. -/
structure SiriusState : Type where
  key : Option (List Nat)
  sessionId : Option (List Char)
deriving DecidableEq

/-- The completion step of `Sirius.login` (`sirius.py` lines 152 and
168-177) as a state transformation: `self.key` is set to the derived
key before the completion request; if the response status is 0
(failure) an error is raised — `invalidCredentials` when
`messages.code` is 401, `unknownAuthError` otherwise — leaving
`self.session_id` untouched; otherwise `self.session_id` is set to the
response's `sessionId`.  No branch retries: each call issues exactly
one completion request. -/
def loginRun (st : SiriusState) (derivedKey : List Nat) (resp : CompletionResponse) :
    SiriusState × Option AuthError :=
  let st1 : SiriusState := ⟨some derivedKey, st.sessionId⟩
  if resp.status = 0 then
    if resp.code = 401 then (st1, some .invalidCredentials)
    else (st1, some .unknownAuthError)
  else (⟨some derivedKey, some resp.sessionId⟩, none)

/-- The metadata-selection loop of
`SeriousRequestHandler.channel_metadata` (`server.py` lines 204-211):
`metadata` starts as `None` and is set to the first parse result that
is not `None` (`if not metadata and new_meta`).  The inputs are the
`parse_sxm_metadata` results for the successive metadata-PID
elementary-stream packets of the first fetched segment. -/
def firstMetadata {α : Type} (parses : List (Option α)) : Option α :=
  parses.foldl (fun acc x => match acc with | none => x | some m => some m) none

/-- The now-playing value of the JSON response body (`server.py` lines
213-220). -/
structure NowPlaying (α : Type) : Type where
  artist : α
  title : α
  album : α
deriving DecidableEq

/-- The now-playing part of `channel_metadata`'s response (`server.py`
lines 213-220): the response subscripts `metadata[0]`, `metadata[1]`,
`metadata[2]` with no `None` check, so when no packet carried a
recognized metadata block the endpoint raises `TypeError`
(`'NoneType' object is not subscriptable`), modelled by `none`; it
never builds an empty or default value. -/
def channelMetadata {α : Type} (parses : List (Option (α × α × α))) :
    Option (NowPlaying α) :=
  match firstMetadata parses with
  | none => none
  | some m => some ⟨m.2.1, m.1, m.2.2⟩

theorem suffixAfter_decomp {α : Type} [DecidableEq α] {m : α} :
    ∀ {l : List α}, m ∈ l → ∃ pre, m ∉ pre ∧ l = pre ++ m :: suffixAfter m l
  | x :: xs, hm => by
    by_cases hx : x = m
    · subst hx
      exact ⟨[], by simp, by simp [suffixAfter]⟩
    · have hmem : m ∈ xs := by
        rcases List.mem_cons.mp hm with h | h
        · exact absurd h.symm hx
        · exact h
      obtain ⟨pre, hpre, heq⟩ := suffixAfter_decomp hmem
      refine ⟨x :: pre, ?_, ?_⟩
      · intro hcon
        rcases List.mem_cons.mp hcon with h | h
        · exact hx h.symm
        · exact hpre h
      · have hs : suffixAfter m (x :: xs) = suffixAfter m xs := by
          simp [suffixAfter, hx]
        rw [hs, List.cons_append, ← heq]

theorem splitLines_no_empty_not_any {P : List Char}
    (hP : ∀ l ∈ splitLines P, l ≠ []) :
    (splitLines P).any List.isEmpty = false := by
  rw [List.any_eq_false]
  intro l hl
  simpa using hP l hl

/-- C4 counterexample.  The claim says: for every playlist `P`, every
marker `m` among `P`'s non-comment trimmed entries and every rewind,
`filterPlaylist` returns exactly the suffix of entries strictly after
`m`.  Two explicit inputs refute it.  First, `"x\n\nm\ny"` contains an
empty line, so the code raises `IndexError` (modelled by `none`) even
though the marker `"m"` is among its entries and the claimed suffix
would be `["y"]`.  Second, in `"a\n \nb"` the whitespace-only line
strips to the empty entry; with the empty string as marker Python's
truthiness test `if last and ...` fails, and the code returns the whole
trailing window instead of the claimed suffix `["b"]`. -/
theorem C4_counterexample :
    (filterPlaylist ("x\n\nm\ny").data (some ("m").data) 0 = none
      ∧ ("m").data ∈ entriesPure ("x\n\nm\ny").data
      ∧ suffixAfter ("m").data (entriesPure ("x\n\nm\ny").data) = [("y").data])
    ∧ (filterPlaylist ("a\n \nb").data (some []) 0
          = some [("a").data, [], ("b").data]
      ∧ [] ∈ entriesPure ("a\n \nb").data
      ∧ suffixAfter ([] : List Char) (entriesPure ("a\n \nb").data) = [("b").data]) := by
  decide

/-- C4 (amended): for every playlist text `P` none of whose lines is
empty, every non-empty marker `m` among `P`'s non-comment trimmed
entries, and every rewind `r`, `filterPlaylist P m r` returns exactly
the suffix of entries strictly after the first occurrence of `m`,
preserving their order, independent of `r`. -/
theorem C4_amended (P m : List Char) (r : Nat)
    (hP : ∀ l ∈ splitLines P, l ≠ [])
    (hm : m ≠ [])
    (hmem : m ∈ entriesPure P) :
    filterPlaylist P (some m) r = some (suffixAfter m (entriesPure P))
    ∧ ∃ pre, m ∉ pre
        ∧ entriesPure P = pre ++ m :: suffixAfter m (entriesPure P) := by
  constructor
  · simp only [filterPlaylist, splitLines_no_empty_not_any hP]
    simp [hm, hmem]
  · exact suffixAfter_decomp hmem

theorem C4_witness :
    (∀ l ∈ splitLines ("a\nb\nc").data, l ≠ [])
    ∧ ("b").data ≠ []
    ∧ ("b").data ∈ entriesPure ("a\nb\nc").data
    ∧ (filterPlaylist ("a\nb\nc").data (some ("b").data) 5
        = some (suffixAfter ("b").data (entriesPure ("a\nb\nc").data))
      ∧ ∃ pre, ("b").data ∉ pre
          ∧ entriesPure ("a\nb\nc").data
            = pre ++ ("b").data :: suffixAfter ("b").data (entriesPure ("a\nb\nc").data)) :=
  ⟨by decide, by decide, by decide,
    C4_amended ("a\nb\nc").data ("b").data 5 (by decide) (by decide) (by decide)⟩

/-- C5 counterexample.  The claim says: for every playlist `P` and
marker absent from its entries, `filterPlaylist` returns the last
`10 + 3r` entries (all of them when fewer exist).  On the explicit
input `"\nx"` (no marker) the playlist's entries are `["", "x"]` and
the claimed result is those two entries, but the code raises
`IndexError` on the empty first line (modelled by `none`). -/
theorem C5_counterexample :
    filterPlaylist ("\nx").data none 0 = none
    ∧ lastN 10 (entriesPure ("\nx").data) = [[], ("x").data] := by
  decide

/-- C5 (amended): for every playlist text `P` none of whose lines is
empty, every marker `m` absent from `P`'s non-comment trimmed entries
(including the no-marker case), and every rewind `r`, `filterPlaylist`
returns exactly the last `10 + 3*r` entries of `P`, or all entries when
fewer than `10 + 3*r` exist. -/
theorem C5_amended (P m : List Char) (r : Nat)
    (hP : ∀ l ∈ splitLines P, l ≠ [])
    (hm : m ∉ entriesPure P) :
    filterPlaylist P none r = some (lastN (10 + 3 * r) (entriesPure P))
    ∧ filterPlaylist P (some m) r = some (lastN (10 + 3 * r) (entriesPure P))
    ∧ ((entriesPure P).length ≤ 10 + 3 * r
        → lastN (10 + 3 * r) (entriesPure P) = entriesPure P)
    ∧ (10 + 3 * r ≤ (entriesPure P).length
        → (lastN (10 + 3 * r) (entriesPure P)).length = 10 + 3 * r) := by
  refine ⟨?_, ?_, ?_, ?_⟩
  · simp only [filterPlaylist, splitLines_no_empty_not_any hP]
    simp
  · simp only [filterPlaylist, splitLines_no_empty_not_any hP]
    simp [hm]
  · intro h
    have : (entriesPure P).length - (10 + 3 * r) = 0 := by omega
    simp [lastN, this]
  · intro h
    simp only [lastN, List.length_drop]
    omega

theorem C5_witness :
    (∀ l ∈ splitLines ("a\nb\nc").data, l ≠ [])
    ∧ ("z").data ∉ entriesPure ("a\nb\nc").data
    ∧ (filterPlaylist ("a\nb\nc").data none 0
        = some (lastN (10 + 3 * 0) (entriesPure ("a\nb\nc").data))
      ∧ filterPlaylist ("a\nb\nc").data (some ("z").data) 0
        = some (lastN (10 + 3 * 0) (entriesPure ("a\nb\nc").data))
      ∧ ((entriesPure ("a\nb\nc").data).length ≤ 10 + 3 * 0
          → lastN (10 + 3 * 0) (entriesPure ("a\nb\nc").data)
            = entriesPure ("a\nb\nc").data)
      ∧ (10 + 3 * 0 ≤ (entriesPure ("a\nb\nc").data).length
          → (lastN (10 + 3 * 0) (entriesPure ("a\nb\nc").data)).length = 10 + 3 * 0)) :=
  ⟨by decide, by decide,
    C5_amended ("a\nb\nc").data ("z").data 0 (by decide) (by decide)⟩

/-- C9 (confirmed): for every playlist text containing an empty line,
`_filter_playlist` fails with an out-of-bounds index access (`x[0]` on
the empty line, before any trimming), modelled by `filterPlaylist`
returning `none`, whatever the marker and rewind arguments are. -/
theorem C9_empty_line (P : List Char) (last : Option (List Char)) (r : Nat)
    (h : [] ∈ splitLines P) :
    filterPlaylist P last r = none := by
  have hany : (splitLines P).any List.isEmpty = true := by
    rw [List.any_eq_true]
    exact ⟨[], h, by simp⟩
  simp [filterPlaylist, hany]

theorem C9_witness :
    ([] ∈ splitLines ("a\n\nb").data)
    ∧ filterPlaylist ("a\n\nb").data (some ("a").data) 2 = none :=
  ⟨by decide, C9_empty_line ("a\n\nb").data (some ("a").data) 2 (by decide)⟩

/-- C1 counterexample.  The claim says: on a 404 response the code
invalidates the cached token and retries the fetch exactly once, and
any other non-success status propagates as a fetch error.  On the
scripted statuses `[404, 200]` the code instead raises immediately
after one request with no invalidation and no retry; on `[500, 200]` a
non-success status that is not 404 does not propagate: the code
invalidates the token, retries, and returns the second response
successfully. -/
theorem C1_counterexample :
    (getTokenResource [404, 200] = ⟨.notFound, 1, 0⟩
      ∧ (getTokenResource [404, 200]).invalidations ≠ 1)
    ∧ (getTokenResource [500, 200] = ⟨.ok, 2, 1⟩
      ∧ (getTokenResource [500, 200]).outcome ≠ .notFound) := by
  decide

/-- C1 (amended): for every channelKey and filename, on a 404 ("not
found") response `_get_token_resource` raises `ResourceNotFound`
immediately, without invalidating the token or retrying; on any other
non-success status it invalidates the cached token and retries, with no
bound on the number of retries, until a 200 or a 404 response arrives:
after any run of `n` such statuses, a 200 yields the resource and a 404
raises, in both cases after `n + 1` requests and `n` token
invalidations. -/
theorem C1_amended (ss : List Nat) (h : ∀ s ∈ ss, s ≠ 200 ∧ s ≠ 404)
    (rest : List Nat) :
    getTokenResource (ss ++ 200 :: rest) = ⟨.ok, ss.length + 1, ss.length⟩
    ∧ getTokenResource (ss ++ 404 :: rest) = ⟨.notFound, ss.length + 1, ss.length⟩ := by
  induction ss with
  | nil => exact ⟨by simp [getTokenResource], by simp [getTokenResource]⟩
  | cons s ss ih =>
    have h200 : s ≠ 200 := (h s (List.mem_cons_self s ss)).1
    have h404 : s ≠ 404 := (h s (List.mem_cons_self s ss)).2
    have ih' := ih (fun x hx => h x (List.mem_cons_of_mem s hx))
    refine ⟨?_, ?_⟩ <;>
      simp [getTokenResource, h200, h404, ih'.1, ih'.2]

theorem C1_witness :
    (∀ s ∈ [500, 503], s ≠ 200 ∧ s ≠ 404)
    ∧ (getTokenResource ([500, 503] ++ 200 :: [])
        = ⟨.ok, [500, 503].length + 1, [500, 503].length⟩
      ∧ getTokenResource ([500, 503] ++ 404 :: [])
        = ⟨.notFound, [500, 503].length + 1, [500, 503].length⟩) :=
  ⟨by decide, C1_amended [500, 503] (by decide) []⟩

/-- C2 counterexample.  The claim says: when the token response lacks
usable token data, `_channel_token` re-logs-in exactly once and retries
exactly once, and a second failure propagates a `TokenError`.  On the
scripted responses `[none, none, some 7]` (two unusable responses, then
a usable one) the code instead re-logs-in twice, issues three requests,
and returns the token — no error is ever propagated. -/
theorem C2_counterexample :
    channelToken false (none : Option Nat) [none, none, some 7] = ⟨.ok 7, 3, 2⟩
    ∧ (channelToken false (none : Option Nat) [none, none, some 7]).logins ≠ 1 := by
  decide

theorem channelToken_ok_after {α : Type} (t : α) (rest : List (Option α)) :
    ∀ (n : Nat) (inv : Bool),
      channelToken inv (none : Option α) (List.replicate n none ++ some t :: rest)
        = ⟨.ok t, n + 1, n⟩
  | 0, inv => by cases inv <;> rfl
  | n + 1, inv => by
    have ih := channelToken_ok_after t rest n true
    cases inv <;> simp [List.replicate_succ, channelToken, ih]

theorem channelToken_out {α : Type} :
    ∀ (n : Nat) (inv : Bool),
      channelToken inv (none : Option α) (List.replicate n none)
        = ⟨.outOfResponses, n, n⟩
  | 0, inv => by cases inv <;> rfl
  | n + 1, inv => by
    have ih := channelToken_out (α := α) n true
    cases inv <;> simp [List.replicate_succ, channelToken, ih]

/-- C2 (amended): a cached entry is returned without any request; when
the token endpoint's response lacks usable token data, `_channel_token`
re-logs-in and retries with `invalidate = True` again and again, with
no bound: after `n` consecutive unusable responses a usable one is
still accepted (`n` re-logins, `n + 1` requests), and as long as the
responses stay unusable the code keeps re-logging-in and requesting,
one login and one request per unusable response — no `TokenError` (or
any other error) is ever propagated. -/
theorem C2_amended {α : Type} (t c : α) (n : Nat) (rest rs : List (Option α)) :
    channelToken false (some c) rs = ⟨.ok c, 0, 0⟩
    ∧ channelToken false (none : Option α) (List.replicate n none ++ some t :: rest)
        = ⟨.ok t, n + 1, n⟩
    ∧ channelToken false (none : Option α) (List.replicate n none)
        = ⟨.outOfResponses, n, n⟩ :=
  ⟨by simp [channelToken], channelToken_ok_after t rest n false, channelToken_out n false⟩

/-- C3 counterexample.  The claim says the pacer sleeps before the
current frame's write, so consecutive frame writes are never less than
4 seconds minus processing time apart.  In the code the sleep happens
after the write: with processing times `[0, 1]` the two writes happen
at times 0 and 1, a gap of 1 second, although the claim requires at
least `4 - 1 = 3` seconds. -/
theorem C3_counterexample :
    pacerRun 0 none [0, 1] = [(0, 0), (1, 4)]
    ∧ ¬ ((1 : ℚ) - 0 ≥ 4 - 1) := by
  constructor
  · norm_num [pacerRun]
  · norm_num

theorem pacerRun_chain (ps : List ℚ) (h : ∀ p ∈ ps, 0 ≤ p) :
    ∀ s : ℚ,
      List.Chain' (fun a b : ℚ × ℚ => a.2 + 4 ≤ b.2) (pacerRun s (some s) ps)
      ∧ List.Chain' (fun a b : ℚ × ℚ => a.2 ≤ b.1) (pacerRun s (some s) ps)
      ∧ ∀ x ∈ (pacerRun s (some s) ps).head?, s + 4 ≤ x.2 ∧ s ≤ x.1 := by
  induction ps with
  | nil => intro s; simp [pacerRun]
  | cons p ps ih =>
    intro s
    have hp : 0 ≤ p := h p (List.mem_cons_self p ps)
    have ih' := ih (fun x hx => h x (List.mem_cons_of_mem p hx))
    have ht : pacerRun s (some s) (p :: ps)
        = (s + p, if s + p - s < 4 then s + 4 else s + p)
          :: pacerRun (if s + p - s < 4 then s + 4 else s + p)
              (some (if s + p - s < 4 then s + 4 else s + p)) ps := rfl
    have hw : s + p - s = p := by ring
    rw [hw] at ht
    by_cases hp4 : p < 4
    · rw [if_pos hp4] at ht
      obtain ⟨hc1, hc2, hh⟩ := ih' (s + 4)
      refine ⟨?_, ?_, ?_⟩
      · rw [ht, List.chain'_cons']
        refine ⟨fun y hy => ?_, hc1⟩
        have h1 := (hh y hy).1
        show s + 4 + 4 ≤ y.2
        linarith
      · rw [ht, List.chain'_cons']
        refine ⟨fun y hy => ?_, hc2⟩
        have h1 := (hh y hy).2
        show s + 4 ≤ y.1
        linarith
      · rw [ht]
        intro x hx
        simp only [List.head?_cons, Option.mem_def, Option.some.injEq] at hx
        subst hx
        exact ⟨le_refl _, by show s ≤ s + p; linarith⟩
    · rw [if_neg hp4] at ht
      have hge : (4 : ℚ) ≤ p := le_of_not_lt hp4
      obtain ⟨hc1, hc2, hh⟩ := ih' (s + p)
      refine ⟨?_, ?_, ?_⟩
      · rw [ht, List.chain'_cons']
        refine ⟨fun y hy => ?_, hc1⟩
        have h1 := (hh y hy).1
        show s + p + 4 ≤ y.2
        linarith
      · rw [ht, List.chain'_cons']
        refine ⟨fun y hy => ?_, hc2⟩
        have h1 := (hh y hy).2
        show s + p ≤ y.1
        linarith
      · rw [ht]
        intro x hx
        simp only [List.head?_cons, Option.mem_def, Option.some.injEq] at hx
        subst hx
        exact ⟨by show s + 4 ≤ s + p; linarith, by show s ≤ s + p; linarith⟩

/-- C3 (amended): the pacer sleeps after the current frame's write, not
before it.  For every connection and every sequence of nonnegative
per-frame processing times: the first frame is never delayed by pacing
(it is written as soon as its processing completes); every later frame
is written no earlier than the timestamp recorded for its predecessor;
and consecutive recorded timestamps are never less than 4 seconds
apart.  The wall-clock gap between two consecutive frame writes,
however, can be smaller than 4 seconds minus the processing time spent
(see the counterexample): the code only enforces the 4-second spacing
between the recorded timestamps. -/
theorem C3_amended (ps : List ℚ) (h : ∀ p ∈ ps, 0 ≤ p) (t0 : ℚ) :
    (pacerRun t0 none ps).head?.map Prod.fst = ps.head?.map (fun p => t0 + p)
    ∧ List.Chain' (fun a b : ℚ × ℚ => a.2 + 4 ≤ b.2) (pacerRun t0 none ps)
    ∧ List.Chain' (fun a b : ℚ × ℚ => a.2 ≤ b.1) (pacerRun t0 none ps) := by
  cases ps with
  | nil => simp [pacerRun]
  | cons p ps =>
    have hrun : pacerRun t0 none (p :: ps)
        = (t0 + p, t0 + p) :: pacerRun (t0 + p) (some (t0 + p)) ps := by
      simp [pacerRun]
    obtain ⟨hc1, hc2, hh⟩ :=
      pacerRun_chain ps (fun x hx => h x (List.mem_cons_of_mem p hx)) (t0 + p)
    refine ⟨by rw [hrun]; simp, ?_, ?_⟩
    · rw [hrun, List.chain'_cons']
      refine ⟨fun y hy => ?_, hc1⟩
      have h1 := (hh y hy).1
      show t0 + p + 4 ≤ y.2
      linarith
    · rw [hrun, List.chain'_cons']
      refine ⟨fun y hy => ?_, hc2⟩
      have h1 := (hh y hy).2
      show t0 + p ≤ y.1
      linarith

theorem hexDecode_odd : ∀ (l : List Char), l.length % 2 = 1 → hexDecode l = none
  | [], h => by simp at h
  | [_], _ => rfl
  | c1 :: c2 :: rest, h => by
    have hr : rest.length % 2 = 1 := by
      simp only [List.length_cons] at h
      omega
    have ih := hexDecode_odd rest hr
    cases h1 : hexDigitVal c1 <;> cases h2 : hexDigitVal c2 <;>
      simp [hexDecode, h1, h2, ih]

theorem hexDecode_append_pad : ∀ (m : List Char),
    hexDecode (m ++ padHexChars)
      = (hexDecode m).map (fun bs => bs ++ List.replicate 16 16)
  | [] => by decide
  | [c] => by
    have hodd : (c :: padHexChars).length % 2 = 1 := by
      have h32 : padHexChars.length = 32 := rfl
      simp [h32]
    have hnone := hexDecode_odd (c :: padHexChars) hodd
    simpa [hexDecode] using hnone
  | c1 :: c2 :: rest => by
    have ih := hexDecode_append_pad rest
    cases h1 : hexDigitVal c1 <;> cases h2 : hexDigitVal c2 <;>
      simp [hexDecode, h1, h2, ih, List.cons_append]
    cases hexDecode rest <;> simp

/-- C7 (confirmed): the login message construction is deterministic
(it is a pure function of challenge, salt, iteration count, hardware
id, ethernet mac and password once the cryptographic primitives are
fixed), and it equals the claim's formulation: the derived key is
PBKDF2-HMAC-SHA256 over the hex-decoded MD5 hex digest of the password
with the hex-decoded salt, the given iteration count and output length
16, and `authenticationData` is the hex encoding of the AES-CBC
encryption, under that key with an all-zero 16-byte IV, of the
hex-decoded message followed by sixteen `0x10` bytes, where the
message is the challenge concatenated with the first 32 hex characters
of SHA256(hex-decode(hardwareId ++ ethernetMac ++ challenge)). -/
theorem C7_login (pr : CryptoPrims) (challenge salt hardwareId ethernetMac : List Char)
    (iterations : Nat) (password : List Nat) :
    loginDerive pr challenge salt iterations hardwareId ethernetMac password
      = loginDeriveSpec pr challenge salt iterations hardwareId ethernetMac password := by
  cases hid : hexDecode (hardwareId ++ ethernetMac ++ challenge) with
  | none => simp only [loginDerive, loginDeriveSpec, hid]
  | some idBytes =>
    cases hph : hexDecode (pr.md5Hex password) with
    | none => simp only [loginDerive, loginDeriveSpec, hid, hph]
    | some phBytes =>
      cases hsalt : hexDecode salt with
      | none => simp only [loginDerive, loginDeriveSpec, hid, hph, hsalt]
      | some saltBytes =>
        have hpad := hexDecode_append_pad (challenge ++ List.take 32 (pr.sha256Hex idBytes))
        cases hmsg : hexDecode (challenge ++ List.take 32 (pr.sha256Hex idBytes)) with
        | none =>
          rw [hmsg] at hpad
          simp only [loginDerive, loginDeriveSpec, KEY_LENGTH, hid, hph, hsalt, hmsg,
            hpad, Option.map_none']
        | some msgBytes =>
          rw [hmsg] at hpad
          simp only [loginDerive, loginDeriveSpec, KEY_LENGTH, hid, hph, hsalt, hmsg,
            hpad, Option.map_some']

/-- C6 (confirmed): for every emitted OutputFrame, exactly one metadata
sub-frame accompanies the block of exactly 32768 audio bytes.  When no
title change is pending the sub-frame is exactly the single byte 0;
when a title change is pending it is one length byte equal to
`ceil(textLength / 16)` followed by the text
`StreamTitle='<title with every apostrophe removed>';` zero-padded so
that the total sub-frame length is `1 + 16 *` the first byte. -/
theorem C6_frame (audio title : List Nat) (newMeta : Bool) (mb : List Nat)
    (hmeta : metaBuffer newMeta title = some mb)
    (haudio : 32768 ≤ audio.length) :
    outputFrame audio newMeta title = some (audio.take 32768, mb)
    ∧ (audio.take 32768).length = 32768
    ∧ (newMeta = false → mb = [0])
    ∧ (newMeta = true →
        mb = metaLen title
          :: (metaTitleBytes title
              ++ List.replicate (metaLen title * 16 - (metaTitleBytes title).length) 0)
        ∧ mb.head? = some (metaLen title)
        ∧ metaLen title = ((metaTitleBytes title).length + 15) / 16
        ∧ mb.length = 1 + 16 * metaLen title) := by
  refine ⟨?_, ?_, ?_, ?_⟩
  · simp [outputFrame, haudio, hmeta]
  · simp only [List.length_take]
    omega
  · rintro rfl
    simp only [metaBuffer, Bool.false_eq_true, if_false, Option.some.injEq] at hmeta
    exact hmeta.symm
  · rintro rfl
    simp only [metaBuffer, if_true] at hmeta
    rcases le_or_lt (metaLen title) 255 with hle | hgt
    · rw [if_pos hle] at hmeta
      have hmb := (Option.some.injEq _ _).mp hmeta
      subst hmb
      refine ⟨rfl, rfl, rfl, ?_⟩
      have hceil : metaLen title = ((metaTitleBytes title).length + 15) / 16 := rfl
      simp only [List.length_cons, List.length_append, List.length_replicate]
      omega
    · rw [if_neg (Nat.not_le.mpr hgt)] at hmeta
      cases hmeta

theorem C6_witness :
    metaBuffer true [65]
      = some [1, 83, 116, 114, 101, 97, 109, 84, 105, 116, 108, 101, 61, 39, 65, 39, 59]
    ∧ 32768 ≤ (List.replicate 32768 0).length
    ∧ (outputFrame (List.replicate 32768 0) true [65]
        = some ((List.replicate 32768 0).take 32768,
            [1, 83, 116, 114, 101, 97, 109, 84, 105, 116, 108, 101, 61, 39, 65, 39, 59])
      ∧ ((List.replicate 32768 (0 : Nat)).take 32768).length = 32768
      ∧ (true = false
          → [1, 83, 116, 114, 101, 97, 109, 84, 105, 116, 108, 101, 61, 39, 65, 39, 59] = [0])
      ∧ (true = true →
          [1, 83, 116, 114, 101, 97, 109, 84, 105, 116, 108, 101, 61, 39, 65, 39, 59]
            = metaLen [65]
              :: (metaTitleBytes [65]
                  ++ List.replicate (metaLen [65] * 16 - (metaTitleBytes [65]).length) 0)
          ∧ ([1, 83, 116, 114, 101, 97, 109, 84, 105, 116, 108, 101, 61, 39, 65, 39, 59] :
              List Nat).head? = some (metaLen [65])
          ∧ metaLen [65] = ((metaTitleBytes [65]).length + 15) / 16
          ∧ ([1, 83, 116, 114, 101, 97, 109, 84, 105, 116, 108, 101, 61, 39, 65, 39, 59] :
              List Nat).length = 1 + 16 * metaLen [65])) :=
  ⟨by decide, by rw [List.length_replicate],
    C6_frame (List.replicate 32768 0) [65] true
      [1, 83, 116, 114, 101, 97, 109, 84, 105, 116, 108, 101, 61, 39, 65, 39, 59]
      (by decide) (by rw [List.length_replicate])⟩

/-- C8 (confirmed): when the completion response reports failure
(status 0), `login` raises `InvalidCredentials` if the message code is
401 and `UnknownAuthError` for any other code, terminally and without
retrying (the embedding consumes exactly one completion response per
call and has no retry path); on a non-failure status it stores the
response's sessionId together with the derived key as the new Session,
replacing any prior one. -/
theorem C8_login (st : SiriusState) (derivedKey : List Nat) (resp : CompletionResponse) :
    (resp.status = 0 → resp.code = 401 →
      loginRun st derivedKey resp
        = (⟨some derivedKey, st.sessionId⟩, some AuthError.invalidCredentials))
    ∧ (resp.status = 0 → resp.code ≠ 401 →
      loginRun st derivedKey resp
        = (⟨some derivedKey, st.sessionId⟩, some AuthError.unknownAuthError))
    ∧ (resp.status ≠ 0 →
      loginRun st derivedKey resp
        = (⟨some derivedKey, some resp.sessionId⟩, none)) := by
  refine ⟨?_, ?_, ?_⟩
  · intro h1 h2
    simp [loginRun, h1, h2]
  · intro h1 h2
    simp [loginRun, h1, h2]
  · intro h1
    simp [loginRun, h1]

theorem C8_witness :
    ((0 : Int) = 0) ∧ ((401 : Int) = 401) ∧ ((402 : Int) ≠ 401) ∧ ((1 : Int) ≠ 0)
    ∧ loginRun ⟨none, none⟩ [1, 2] ⟨0, 401, ("sid").data⟩
        = (⟨some [1, 2], none⟩, some AuthError.invalidCredentials)
    ∧ loginRun ⟨none, none⟩ [1, 2] ⟨0, 402, ("sid").data⟩
        = (⟨some [1, 2], none⟩, some AuthError.unknownAuthError)
    ∧ loginRun ⟨none, none⟩ [1, 2] ⟨1, 402, ("sid").data⟩
        = (⟨some [1, 2], some ("sid").data⟩, none) :=
  ⟨rfl, rfl, by decide, by decide,
    (C8_login ⟨none, none⟩ [1, 2] ⟨0, 401, ("sid").data⟩).1 rfl rfl,
    (C8_login ⟨none, none⟩ [1, 2] ⟨0, 402, ("sid").data⟩).2.1 rfl (by decide),
    (C8_login ⟨none, none⟩ [1, 2] ⟨1, 402, ("sid").data⟩).2.2 (by decide)⟩

theorem firstMetadata_none {α : Type} :
    ∀ (parses : List (Option α)), (∀ x ∈ parses, x = none) → firstMetadata parses = none
  | [], _ => rfl
  | x :: rest, h => by
    have hx : x = none := h x (List.mem_cons_self x rest)
    subst hx
    have ih := firstMetadata_none rest (fun y hy => h y (List.mem_cons_of_mem _ hy))
    simpa [firstMetadata] using ih

/-- C10 (confirmed): when the first fetched segment yields no
recognized metadata block on the metadata PID (every parse result is
`None`, including the case of no metadata packets at all), the
now-playing endpoint's response construction subscripts the absent
result and raises (`none` in the embedding) instead of returning an
empty or default title/artist/album value. -/
theorem C10_metadata {α : Type} (parses : List (Option (α × α × α)))
    (h : ∀ x ∈ parses, x = none) :
    channelMetadata parses = none := by
  simp [channelMetadata, firstMetadata_none parses h]

theorem C10_witness :
    (∀ x ∈ ([none, none] : List (Option (Nat × Nat × Nat))), x = none)
    ∧ channelMetadata ([none, none] : List (Option (Nat × Nat × Nat))) = none :=
  ⟨by decide, C10_metadata [none, none] (by decide)⟩

theorem C3_witness :
    (∀ p ∈ [(1 : ℚ), 2], 0 ≤ p)
    ∧ ((pacerRun 0 none [(1 : ℚ), 2]).head?.map Prod.fst
        = [(1 : ℚ), 2].head?.map (fun p => 0 + p)
      ∧ List.Chain' (fun a b : ℚ × ℚ => a.2 + 4 ≤ b.2) (pacerRun 0 none [(1 : ℚ), 2])
      ∧ List.Chain' (fun a b : ℚ × ℚ => a.2 ≤ b.1) (pacerRun 0 none [(1 : ℚ), 2])) :=
  ⟨by norm_num, C3_amended [(1 : ℚ), 2] (by norm_num) 0⟩
